import Mathlib

/-!
Shallow embedding of the `MovieManager` business-logic layer of the
MovieDatabse repository (`src/movie_manager.py`), together with proofs of
the spec claims about it.

Modelling conventions:
* A Python `dict` of movies is an insertion-ordered association list
  `List (String × Movie)`; insertion appends at the end, as CPython dicts do
  for fresh keys.
* Python floats are modelled by `ℚ`; the model covers finite numeric literal
  values (the non-finite literals `inf`/`nan` are outside the model), and
  text is modelled at the ASCII level (`lower`, `isdigit`, `strip`).
* Each mutating method returns the final collection, the list of collections
  handed to `movie_storage.save_movies` (so "persisted"/"no save" is
  observable), and the `(success, message)` pair the Python method returns.
  A Python exception escaping the method is an `Except.error`.
-/

namespace MovieDB

/-- A movie record, keyed externally by its title.  Manual adds store only
`rating` and `year`; OMDb adds also store `description` (possibly `None`,
modelled as `none`) and `actors`.  `actors = none` models a record without
the `"actors"` key. -/
structure Movie where
  rating : ℚ
  year : ℤ
  description : Option String := none
  actors : Option (List String) := none
deriving Repr, DecidableEq

/-- The in-memory collection `self.movies`: an insertion-ordered map from
title to record. -/
abbrev Collection := List (String × Movie)

/-- A Python exception escaping a `MovieManager` method. -/
inductive PyError where
  | keyError (key : String)
deriving Repr, DecidableEq

/-- Observable outcome of one `MovieManager` mutating method call:
the collection afterwards, every collection passed to
`movie_storage.save_movies` (in order), and the returned
`(success, message)` tuple. -/
structure OpResult where
  movies : Collection
  saved : List Collection
  ok : Bool
  msg : String
deriving Repr, DecidableEq

/-- `self.movies[title]` / `title in self.movies`: first binding of `title`. -/
def lookupTitle (c : Collection) (t : String) : Option Movie :=
  match c with
  | [] => none
  | (k, m) :: rest => if k = t then some m else lookupTitle rest t

/-- `self.movies.pop(title)`, the removal part (first binding removed). -/
def removeTitle (c : Collection) (t : String) : Collection :=
  match c with
  | [] => []
  | (k, m) :: rest => if k = t then rest else (k, m) :: removeTitle rest t

/-- A single-quote character, used in the messages the Python code builds
with f-strings. -/
def sq : String := String.mk [Char.ofNat 39]

/-! ### Python string primitives used by `movie_manager.py` (ASCII model) -/

/-- Decimal value of a digit run (how Python `int` reads an all-digit
string). -/
def natOfDigits (ds : List Char) : ℕ :=
  ds.foldl (fun n c => 10 * n + (c.toNat - 48)) 0

/-- Python `str.strip()` on ASCII text: drop whitespace from both ends. -/
def pyStripChars (cs : List Char) : List Char :=
  ((cs.dropWhile Char.isWhitespace).reverse.dropWhile Char.isWhitespace).reverse

/-- Python `str.strip()` as a `String` operation. -/
def pyStrip (s : String) : String :=
  String.mk (pyStripChars s.data)

/-- Python `str.capitalize()` on ASCII text: first character upper-cased,
the rest lower-cased. -/
def pyCapitalize (s : String) : String :=
  match s.data with
  | [] => ""
  | c :: cs => String.mk (c.toUpper :: cs.map Char.toLower)

/-- Python `str.isdigit()` on ASCII text: non-empty and all decimal digits. -/
def pyIsDigit (s : String) : Bool :=
  !s.data.isEmpty && s.data.all Char.isDigit

/-- Worker for `pyDigitPart`: consume further digits, allowing a single
underscore between two digits (Python numeric-literal digit groups). -/
def pyDigitGo (acc : List Char) : List Char → List Char × List Char
  | '_' :: c :: cs =>
      if c.isDigit then pyDigitGo (acc ++ [c]) cs else (acc, '_' :: c :: cs)
  | c :: cs =>
      if c.isDigit then pyDigitGo (acc ++ [c]) cs else (acc, c :: cs)
  | [] => (acc, [])

/-- Python `digitpart`: a leading digit, then digits with single underscores
in between.  Returns the digits (underscores dropped) and the rest, or
`none` if there is no leading digit. -/
def pyDigitPart : List Char → Option (List Char × List Char)
  | c :: cs => if c.isDigit then some (pyDigitGo [c] cs) else none
  | [] => none

/-- Optional sign: returns (negative?, rest). -/
def pySign : List Char → Bool × List Char
  | '+' :: cs => (false, cs)
  | '-' :: cs => (true, cs)
  | cs => (false, cs)

/-- Mantissa of a Python float literal:
`digitpart [. [digitpart]] | . digitpart`.  Returns integer digits,
fraction digits and the rest. -/
def pyMantissa (cs : List Char) : Option (List Char × List Char × List Char) :=
  match pyDigitPart cs with
  | some (ip, rest) =>
      match rest with
      | '.' :: rest₂ =>
          match pyDigitPart rest₂ with
          | some (fp, rest₃) => some (ip, fp, rest₃)
          | none => some (ip, [], rest₂)
      | _ => some (ip, [], rest)
  | none =>
      match cs with
      | '.' :: rest₂ =>
          match pyDigitPart rest₂ with
          | some (fp, rest₃) => some ([], fp, rest₃)
          | none => none
      | _ => none

/-- Exponent tail after `e`/`E`: optional sign then a digitpart. -/
def pyExpTail (cs : List Char) : Option (ℤ × List Char) :=
  let (neg, cs₂) := pySign cs
  match pyDigitPart cs₂ with
  | some (ds, rest) =>
      some (if neg then -(natOfDigits ds : ℤ) else (natOfDigits ds : ℤ), rest)
  | none => none

/-- Optional exponent part of a Python float literal. -/
def pyExp : List Char → Option (ℤ × List Char)
  | 'e' :: cs => pyExpTail cs
  | 'E' :: cs => pyExpTail cs
  | cs => some (0, cs)

/-- Python `float(s)` on finite numeric literals: surrounding whitespace
stripped, optional sign, mantissa, optional exponent, nothing left over.
Returns `none` when `float(s)` raises `ValueError` (the non-finite literals
`inf`/`infinity`/`nan` are outside this model). -/
def pyFloat? (s : String) : Option ℚ :=
  let (neg, cs) := pySign (pyStripChars s.data)
  match pyMantissa cs with
  | none => none
  | some (ip, fp, rest) =>
      match pyExp rest with
      | none => none
      | some (ex, rest₂) =>
          if rest₂ = [] then
            let mag : ℚ :=
              ((natOfDigits ip : ℚ) + (natOfDigits fp : ℚ) / (10 : ℚ) ^ fp.length) *
                (10 : ℚ) ^ ex
            some (if neg then -mag else mag)
          else none

/-- Python `int(s)` (base 10): surrounding whitespace stripped, optional
sign, one digitpart, nothing left over. -/
def pyInt? (s : String) : Option ℤ :=
  let (neg, cs) := pySign (pyStripChars s.data)
  match pyDigitPart cs with
  | some (ds, []) =>
      some (if neg then -(natOfDigits ds : ℤ) else (natOfDigits ds : ℤ))
  | _ => none

/-- Python `str.split(sep)` for a single-character separator:
`"".split(",") = [""]`, every occurrence of the separator starts a new
piece. -/
def pySplit (sep : Char) : List Char → List (List Char)
  | [] => [[]]
  | c :: cs =>
      if c = sep then [] :: pySplit sep cs
      else
        match pySplit sep cs with
        | [] => [[c]]
        | h :: t => (c :: h) :: t

/-- Python `needle in hay` on strings: substring containment. -/
def strContains (hay needle : String) : Bool :=
  decide (needle.data <:+: hay.data)

/-- ASCII `str.lower()`. -/
def pyLower (s : String) : String :=
  String.mk (s.data.map Char.toLower)

/-! ### `MovieManager` operations (`src/movie_manager.py`) -/

/-- The loosely-typed OMDb payload, restricted to the four fields
`add_movie_from_omdb` reads.  `none` models a missing key. -/
structure OmdbData where
  year : Option String := none
  imdbRating : Option String := none
  plot : Option String := none
  actors : Option String := none
deriving Repr, DecidableEq

/-- `MovieManager.add_movie_manually` (src/movie_manager.py:30). -/
def add_movie_manually (c : Collection) (title : String) (rating : ℚ)
    (year : ℤ) : OpResult :=
  if (lookupTitle c title).isSome then
    ⟨c, [], false, "Movie " ++ sq ++ title ++ sq ++ " already exists!"⟩
  else
    let c' := c ++ [(title, { rating := rating, year := year })]
    ⟨c', [c'], true, "Movie " ++ sq ++ title ++ sq ++ " added successfully."⟩

/-- Line 67: `int(year_str) if year_str and year_str.isdigit() else 0`
(a missing key gives `year_str = None`, which is falsy like `""`). -/
def omdbYear : Option String → ℤ
  | some s => if pyIsDigit s then (natOfDigits s.data : ℤ) else 0
  | none => 0

/-- Lines 68-72: `float(rating_str) if rating_str and rating_str != "N/A"
else 0.0`; a failing `float` raises `ValueError`, modelled as `.error`
carrying the CPython message. -/
def omdbRating : Option String → Except String ℚ
  | none => .ok 0
  | some s =>
      if s ≠ "" ∧ s ≠ "N/A" then
        match pyFloat? s with
        | some q => .ok q
        | none =>
            .error ("could not convert string to float: " ++ sq ++ s ++ sq)
      else .ok 0

/-- Line 73: `[actor.strip() for actor in actors_str.split(",")]`. -/
def splitActors (actorsStr : String) : List String :=
  (pySplit ',' actorsStr.data).map (fun l => pyStrip (String.mk l))

/-- `MovieManager.add_movie_from_omdb` (src/movie_manager.py:48).  The
`except (ValueError, TypeError)` branch is the `.error` case of
`omdbRating` (the only fallible step in the `try` block on this model). -/
def add_movie_from_omdb (c : Collection) (title : String) (d : OmdbData) :
    OpResult :=
  if (lookupTitle c title).isSome then
    ⟨c, [], false, "Movie " ++ sq ++ title ++ sq ++ " already exists!"⟩
  else
    match omdbRating d.imdbRating with
    | .error e => ⟨c, [], false, "Could not parse movie data from OMDb: " ++ e⟩
    | .ok rating =>
        let c' := c ++ [(title,
          { rating := rating
            year := omdbYear d.year
            description := d.plot
            actors := some (splitActors (d.actors.getD "")) })]
        ⟨c', [c'], true,
          "Movie " ++ sq ++ title ++ sq ++ " added successfully."⟩

/-- `MovieManager.update_movie_title` (src/movie_manager.py:102).
`self.movies.pop(old_title)` raises `KeyError` when `old_title` is absent;
only `new_title` is checked beforehand. -/
def update_movie_title (c : Collection) (old_title new_title : String) :
    Except PyError OpResult :=
  if (lookupTitle c new_title).isSome then
    .ok ⟨c, [], false, "Invalid or duplicate title."⟩
  else
    match lookupTitle c old_title with
    | none => .error (.keyError old_title)
    | some m =>
        let c' := removeTitle c old_title ++ [(new_title, m)]
        .ok ⟨c', [c'], true,
          "Movie title updated to " ++ sq ++ new_title ++ sq ++ "."⟩

/-- The four record fields a caller can name in `update_movie_field`. -/
inductive Field where
  | rating
  | year
  | description
  | actors
deriving Repr, DecidableEq

/-- The Python type of each field's value. -/
@[reducible] def Field.Ty : Field → Type
  | .rating => ℚ
  | .year => ℤ
  | .description => Option String
  | .actors => Option (List String)

/-- The Python name of a field. -/
def Field.pyName : Field → String
  | .rating => "rating"
  | .year => "year"
  | .description => "description"
  | .actors => "actors"

/-- `self.movies[title][field] = value` on one record. -/
def setField (m : Movie) : (f : Field) → f.Ty → Movie
  | .rating, v => { m with rating := v }
  | .year, v => { m with year := v }
  | .description, v => { m with description := v }
  | .actors, v => { m with actors := v }

/-- `MovieManager.update_movie_field` (src/movie_manager.py:110).  The
lookup `self.movies[title]` raises `KeyError` when `title` is absent —
there is no existence check. -/
def update_movie_field (c : Collection) (title : String) (f : Field)
    (v : f.Ty) : Except PyError OpResult :=
  match lookupTitle c title with
  | none => .error (.keyError title)
  | some _ =>
      let c' := c.map (fun p => if p.1 = title then (p.1, setField p.2 f v) else p)
      .ok ⟨c', [c'], true, pyCapitalize f.pyName ++ " updated successfully."⟩

/-- The dictionary returned by `MovieManager.get_stats`. -/
structure Stats where
  total_movies : ℕ
  avg_rating : ℚ
  median_rating : ℚ
  best_movies : List String × ℚ
  worst_movies : List String × ℚ
deriving Repr, DecidableEq

/-- Python `max(l)` on a non-empty list (`0` is an arbitrary value for the
unreachable empty case). -/
def listMax : List ℚ → ℚ
  | [] => 0
  | r :: rs => rs.foldl max r

/-- Python `min(l)` on a non-empty list. -/
def listMin : List ℚ → ℚ
  | [] => 0
  | r :: rs => rs.foldl min r

/-- `MovieManager.get_stats` (src/movie_manager.py:116).
`statistics.median` sorts the data and takes the middle element (odd
count) or the mean of the two middle elements (even count);
`sorted(...)` on titles is the stable ascending sort. -/
def get_stats (c : Collection) : Option Stats :=
  if c.isEmpty then none
  else
    let ratings := c.map (fun p => p.2.rating)
    let n := ratings.length
    let sortedR := List.insertionSort (· ≤ ·) ratings
    let medianR :=
      if n % 2 = 1 then sortedR.getD (n / 2) 0
      else (sortedR.getD (n / 2 - 1) 0 + sortedR.getD (n / 2) 0) / 2
    let maxR := listMax ratings
    let minR := listMin ratings
    let best := List.insertionSort (· ≤ ·)
      ((c.filter (fun p => decide (p.2.rating = maxR))).map Prod.fst)
    let worst := List.insertionSort (· ≤ ·)
      ((c.filter (fun p => decide (p.2.rating = minR))).map Prod.fst)
    some ⟨n, ratings.sum / (n : ℚ), medianR, (best, maxR), (worst, minR)⟩

/-- The `a:` branch predicate of `search_movies`: `"actors" in data and
any(search_term in actor.lower() for actor in data["actors"])`. -/
def actorMatch (m : Movie) (term : String) : Bool :=
  match m.actors with
  | some as => as.any (fun a => strContains (pyLower a) term)
  | none => false

/-- `MovieManager.search_movies` (src/movie_manager.py:164).
`startswith` on the lowered query is `take 2 = [c, ':']`; `none` is the
Python `None` "bad query" return. -/
def search_movies (c : Collection) (query : String) :
    Option (List (String × Movie)) :=
  let q : List Char := query.data.map Char.toLower
  if q.take 2 = ['a', ':'] then
    let term := pyStrip (String.mk (q.drop 2))
    some (c.filter (fun p => actorMatch p.2 term))
  else if q.take 2 = ['y', ':'] then
    match pyInt? (pyStrip (String.mk (q.drop 2))) with
    | some yr => some (c.filter (fun p => decide (p.2.year = yr)))
    | none => none
  else if q.take 2 = ['r', ':'] then
    match pyFloat? (pyStrip (String.mk (q.drop 2))) with
    | some rt => some (c.filter (fun p => decide (p.2.rating = rt)))
    | none => none
  else
    some (c.filter (fun p => strContains (pyLower p.1) (String.mk q)))

/-- The two sort keys `sort_movies` is called with. -/
inductive SortKey where
  | rating
  | year
deriving Repr, DecidableEq

/-- `x[1][by] <= y[1][by]` for a sort key. -/
def sortRel (k : SortKey) (x y : String × Movie) : Prop :=
  match k with
  | .rating => x.2.rating ≤ y.2.rating
  | .year => x.2.year ≤ y.2.year

instance (k : SortKey) : DecidableRel (sortRel k) := fun x y => by
  cases k <;> dsimp [sortRel] <;> infer_instance

/-- `MovieManager.sort_movies` (src/movie_manager.py:227): Python
`sorted(..., key=..., reverse=order_desc)` is the stable sort under the
(possibly flipped) key comparison. -/
def sort_movies (c : Collection) (k : SortKey) (order_desc : Bool) :
    List (String × Movie) :=
  if order_desc then List.insertionSort (fun x y => sortRel k y x) c
  else List.insertionSort (sortRel k) c

/-! ### Association-list lemmas -/

theorem lookupTitle_eq_none {c : Collection} {t : String} :
    lookupTitle c t = none ↔ ∀ p ∈ c, p.1 ≠ t := by
  induction c with
  | nil => simp [lookupTitle]
  | cons p rest ih =>
      obtain ⟨k, m⟩ := p
      by_cases hk : k = t <;> simp [lookupTitle, hk, ih]

theorem lookupTitle_isSome {c : Collection} {t : String} :
    (lookupTitle c t).isSome = true ↔ ∃ p ∈ c, p.1 = t := by
  rw [Option.isSome_iff_ne_none]
  rw [ne_eq, lookupTitle_eq_none]
  push_neg
  simp

theorem lookupTitle_append {c₁ c₂ : Collection} {t : String}
    (h : lookupTitle c₁ t = none) :
    lookupTitle (c₁ ++ c₂) t = lookupTitle c₂ t := by
  induction c₁ with
  | nil => rfl
  | cons p rest ih =>
      obtain ⟨k, m⟩ := p
      by_cases hk : k = t
      · simp [lookupTitle, hk] at h
      · simp only [lookupTitle, hk, if_false, List.cons_append] at h ⊢
        exact ih h

theorem lookupTitle_removeTitle_ne {c : Collection} {t u : String}
    (h : u ≠ t) : lookupTitle (removeTitle c t) u = lookupTitle c u := by
  induction c with
  | nil => rfl
  | cons p rest ih =>
      obtain ⟨k, m⟩ := p
      by_cases hk : k = t
      · have htu : ¬ (t = u) := fun e => h e.symm
        simp [removeTitle, lookupTitle, hk, htu]
      · simp [removeTitle, lookupTitle, hk, ih]

theorem mem_removeTitle {c : Collection} {t : String} {p : String × Movie}
    (hp : p ∈ removeTitle c t) : p ∈ c := by
  induction c with
  | nil => simp [removeTitle] at hp
  | cons q rest ih =>
      obtain ⟨k, m⟩ := q
      by_cases hk : k = t
      · simp only [removeTitle, hk, if_pos rfl] at hp
        exact List.mem_cons_of_mem _ hp
      · simp only [removeTitle, hk, if_false] at hp
        rcases List.mem_cons.mp hp with h1 | h2
        · exact h1 ▸ List.mem_cons_self _ _
        · exact List.mem_cons_of_mem _ (ih h2)

theorem lookupTitle_removeTitle_none {c : Collection} {t u : String}
    (h : lookupTitle c u = none) :
    lookupTitle (removeTitle c t) u = none := by
  by_cases htu : u = t
  · subst htu
    rw [lookupTitle_eq_none] at h ⊢
    intro p hp
    exact h p (mem_removeTitle hp)
  · rw [lookupTitle_removeTitle_ne htu]
    exact h

theorem lookupTitle_removeTitle_self {c : Collection} {t : String}
    (hnd : (c.map Prod.fst).Nodup) :
    lookupTitle (removeTitle c t) t = none := by
  induction c with
  | nil => rfl
  | cons p rest ih =>
      obtain ⟨k, m⟩ := p
      simp only [List.map_cons, List.nodup_cons] at hnd
      by_cases hk : k = t
      · subst hk
        simp only [removeTitle, if_pos rfl]
        rw [lookupTitle_eq_none]
        intro q hq hqk
        exact hnd.1 (hqk ▸ List.mem_map_of_mem Prod.fst hq)
      · simp only [removeTitle, hk, if_false, lookupTitle, hk]
        exact ih hnd.2

theorem lookupTitle_mapSet_self {c : Collection} {t : String} {m : Movie}
    (g : Movie → Movie) (h : lookupTitle c t = some m) :
    lookupTitle (c.map (fun p => if p.1 = t then (p.1, g p.2) else p)) t =
      some (g m) := by
  induction c with
  | nil => simp [lookupTitle] at h
  | cons p rest ih =>
      obtain ⟨k, v⟩ := p
      rw [List.map_cons]
      show lookupTitle ((if k = t then (k, g v) else (k, v)) :: _) t = _
      rw [lookupTitle] at h
      by_cases hk : k = t
      · rw [if_pos hk] at h ⊢
        rw [lookupTitle, if_pos hk]
        rw [Option.some.injEq] at h
        rw [h]
      · rw [if_neg hk] at h ⊢
        rw [lookupTitle, if_neg hk]
        exact ih h

theorem lookupTitle_mapSet_ne {c : Collection} {t u : String}
    (g : Movie → Movie) (h : u ≠ t) :
    lookupTitle (c.map (fun p => if p.1 = t then (p.1, g p.2) else p)) u =
      lookupTitle c u := by
  induction c with
  | nil => rfl
  | cons p rest ih =>
      obtain ⟨k, v⟩ := p
      rw [List.map_cons]
      show lookupTitle ((if k = t then (k, g v) else (k, v)) :: _) u = _
      by_cases hk : k = t
      · have hku : ¬ (k = u) := by
          intro e
          exact h (by rw [← e, hk])
        rw [if_pos hk, lookupTitle, if_neg hku, lookupTitle, if_neg hku]
        exact ih
      · rw [if_neg hk]
        by_cases hku : k = u
        · rw [lookupTitle, if_pos hku, lookupTitle, if_pos hku]
        · rw [lookupTitle, if_neg hku, lookupTitle, if_neg hku]
          exact ih

theorem lookupTitle_append_some {c₁ c₂ : Collection} {t : String} {x : Movie}
    (h : lookupTitle c₁ t = some x) :
    lookupTitle (c₁ ++ c₂) t = some x := by
  induction c₁ with
  | nil => simp [lookupTitle] at h
  | cons p rest ih =>
      obtain ⟨k, m⟩ := p
      by_cases hk : k = t
      · rw [lookupTitle, if_pos hk] at h
        rw [List.cons_append, lookupTitle, if_pos hk]
        exact h
      · simp only [lookupTitle, hk, if_false] at h
        simp only [List.cons_append, lookupTitle, hk, if_false]
        exact ih h

theorem pySplit_ne_nil (sep : Char) (cs : List Char) :
    pySplit sep cs ≠ [] := by
  induction cs with
  | nil => simp [pySplit]
  | cons c cs ih =>
      by_cases h : c = sep
      · simp [pySplit, h]
      · simp only [pySplit, h, if_false]
        rcases hps : pySplit sep cs with _ | ⟨hd, tl⟩
        · simp
        · simp

theorem foldl_max_eq_or_mem (l : List ℚ) (a : ℚ) :
    l.foldl max a = a ∨ l.foldl max a ∈ l := by
  induction l generalizing a with
  | nil => exact Or.inl rfl
  | cons b l ih =>
      rw [List.foldl_cons]
      rcases ih (max a b) with h | h
      · rcases max_choice a b with hm | hm
        · exact Or.inl (by rw [h, hm])
        · exact Or.inr (by rw [h, hm]; exact List.mem_cons_self b l)
      · exact Or.inr (List.mem_cons_of_mem _ h)

theorem le_foldl_max (l : List ℚ) (a : ℚ) : a ≤ l.foldl max a := by
  induction l generalizing a with
  | nil => exact le_refl a
  | cons b l ih =>
      rw [List.foldl_cons]
      exact le_trans (le_max_left a b) (ih (max a b))

theorem mem_le_foldl_max (l : List ℚ) (a x : ℚ) (hx : x ∈ l) :
    x ≤ l.foldl max a := by
  induction l generalizing a with
  | nil => cases hx
  | cons b l ih =>
      rw [List.foldl_cons]
      rcases List.mem_cons.mp hx with h | h
      · subst h
        exact le_trans (le_max_right a x) (le_foldl_max l (max a x))
      · exact ih (max a b) h

theorem listMax_mem {l : List ℚ} (h : l ≠ []) : listMax l ∈ l := by
  rcases l with _ | ⟨r, rs⟩
  · exact absurd rfl h
  · rw [listMax]
    rcases foldl_max_eq_or_mem rs r with h1 | h1
    · rw [h1]; exact List.mem_cons_self r rs
    · exact List.mem_cons_of_mem _ h1

theorem le_listMax {l : List ℚ} {x : ℚ} (hx : x ∈ l) : x ≤ listMax l := by
  rcases l with _ | ⟨r, rs⟩
  · cases hx
  · rw [listMax]
    rcases List.mem_cons.mp hx with h | h
    · subst h; exact le_foldl_max rs x
    · exact mem_le_foldl_max rs r x h

theorem foldl_min_eq_or_mem (l : List ℚ) (a : ℚ) :
    l.foldl min a = a ∨ l.foldl min a ∈ l := by
  induction l generalizing a with
  | nil => exact Or.inl rfl
  | cons b l ih =>
      rw [List.foldl_cons]
      rcases ih (min a b) with h | h
      · rcases min_choice a b with hm | hm
        · exact Or.inl (by rw [h, hm])
        · exact Or.inr (by rw [h, hm]; exact List.mem_cons_self b l)
      · exact Or.inr (List.mem_cons_of_mem _ h)

theorem foldl_min_le (l : List ℚ) (a : ℚ) : l.foldl min a ≤ a := by
  induction l generalizing a with
  | nil => exact le_refl a
  | cons b l ih =>
      rw [List.foldl_cons]
      exact le_trans (ih (min a b)) (min_le_left a b)

theorem foldl_min_le_mem (l : List ℚ) (a x : ℚ) (hx : x ∈ l) :
    l.foldl min a ≤ x := by
  induction l generalizing a with
  | nil => cases hx
  | cons b l ih =>
      rw [List.foldl_cons]
      rcases List.mem_cons.mp hx with h | h
      · subst h
        exact le_trans (foldl_min_le l (min a x)) (min_le_right a x)
      · exact ih (min a b) h

theorem listMin_mem {l : List ℚ} (h : l ≠ []) : listMin l ∈ l := by
  rcases l with _ | ⟨r, rs⟩
  · exact absurd rfl h
  · rw [listMin]
    rcases foldl_min_eq_or_mem rs r with h1 | h1
    · rw [h1]; exact List.mem_cons_self r rs
    · exact List.mem_cons_of_mem _ h1

theorem listMin_le {l : List ℚ} {x : ℚ} (hx : x ∈ l) : listMin l ≤ x := by
  rcases l with _ | ⟨r, rs⟩
  · cases hx
  · rw [listMin]
    rcases List.mem_cons.mp hx with h | h
    · subst h; exact foldl_min_le rs x
    · exact foldl_min_le_mem rs r x h

theorem filter_orderedInsert_pos {α : Type} (r : α → α → Prop) [DecidableRel r]
    (p : α → Bool) (a : α) (l : List α) (ha : p a = true)
    (h : ∀ b ∈ l, ¬ r a b → p b = false) :
    (l.orderedInsert r a).filter p = a :: l.filter p := by
  induction l with
  | nil => simp [List.orderedInsert, ha]
  | cons b l ih =>
      rw [List.orderedInsert]
      by_cases hr : r a b
      · rw [if_pos hr]
        simp [List.filter_cons, ha]
      · rw [if_neg hr]
        have hb : p b = false := h b (List.mem_cons_self b l) hr
        simp only [List.filter_cons, hb, Bool.false_eq_true, if_false]
        exact ih (fun x hx hrx => h x (List.mem_cons_of_mem b hx) hrx)

theorem filter_orderedInsert_neg {α : Type} (r : α → α → Prop) [DecidableRel r]
    (p : α → Bool) (a : α) (l : List α) (ha : p a = false) :
    (l.orderedInsert r a).filter p = l.filter p := by
  induction l with
  | nil => simp [List.orderedInsert, ha]
  | cons b l ih =>
      rw [List.orderedInsert]
      by_cases hr : r a b
      · rw [if_pos hr]
        simp [List.filter_cons, ha]
      · rw [if_neg hr]
        simp only [List.filter_cons]
        rw [ih]

theorem filter_insertionSort {α : Type} (r : α → α → Prop) [DecidableRel r]
    (p : α → Bool) (hcompat : ∀ x y, p x = true → p y = true → r x y)
    (l : List α) :
    (l.insertionSort r).filter p = l.filter p := by
  induction l with
  | nil => rfl
  | cons a l ih =>
      rw [List.insertionSort]
      by_cases ha : p a = true
      · rw [filter_orderedInsert_pos r p a _ ha ?hno]
        case hno =>
          intro b hb hrab
          by_cases hpb : p b = true
          · exact absurd (hcompat a b ha hpb) hrab
          · simpa using hpb
        rw [ih]
        simp [List.filter_cons, ha]
      · have ha' : p a = false := by simpa using ha
        rw [filter_orderedInsert_neg r p a _ ha', ih]
        simp [List.filter_cons, ha']

/-! ### Claims -/

/-- C3: adding an already-present title fails with the duplicate-title
message on both the manual and the external add path, leaves the in-memory
collection unchanged, and performs no save. -/
theorem claim_C3_duplicate_add (c : Collection) (t : String) (r : ℚ) (y : ℤ)
    (d : OmdbData) (h : (lookupTitle c t).isSome = true) :
    add_movie_manually c t r y =
      ⟨c, [], false, "Movie " ++ sq ++ t ++ sq ++ " already exists!"⟩ ∧
    add_movie_from_omdb c t d =
      ⟨c, [], false, "Movie " ++ sq ++ t ++ sq ++ " already exists!"⟩ := by
  constructor
  · simp [add_movie_manually, h]
  · simp [add_movie_from_omdb, h]

theorem claim_C3_duplicate_add_witness :
    add_movie_manually [("A", ⟨5, 2000, none, none⟩)] "A" 1 2 =
      ⟨[("A", ⟨5, 2000, none, none⟩)], [], false,
        "Movie " ++ sq ++ "A" ++ sq ++ " already exists!"⟩ ∧
    add_movie_from_omdb [("A", ⟨5, 2000, none, none⟩)] "A" ⟨none, none, none, none⟩ =
      ⟨[("A", ⟨5, 2000, none, none⟩)], [], false,
        "Movie " ++ sq ++ "A" ++ sq ++ " already exists!"⟩ :=
  claim_C3_duplicate_add [("A", ⟨5, 2000, none, none⟩)] "A" 1 2
    ⟨none, none, none, none⟩ (by decide)

/-- C10: `update_movie_title` checks only `new_title`; when `old_title` is
absent (and `new_title` too) the `pop` raises `KeyError`, and when
`old_title` is present the call never raises. -/
theorem claim_C10_rename_keyerror (c : Collection) (oldT newT : String) :
    (lookupTitle c oldT = none → lookupTitle c newT = none →
      update_movie_title c oldT newT = .error (.keyError oldT)) ∧
    (∀ m, lookupTitle c oldT = some m →
      ∃ res, update_movie_title c oldT newT = .ok res) := by
  constructor
  · intro h1 h2
    simp [update_movie_title, h2, h1]
  · intro m hm
    by_cases hn : (lookupTitle c newT).isSome
    · exact ⟨⟨c, [], false, "Invalid or duplicate title."⟩,
        by simp [update_movie_title, hn]⟩
    · refine ⟨⟨removeTitle c oldT ++ [(newT, m)], [removeTitle c oldT ++ [(newT, m)]],
        true, "Movie title updated to " ++ sq ++ newT ++ sq ++ "."⟩, ?_⟩
      simp only [update_movie_title, hn, Bool.false_eq_true, if_false, hm]

theorem claim_C10_rename_keyerror_witness :
    (update_movie_title [] "A" "B" = .error (.keyError "A")) ∧
    (∃ res, update_movie_title [("A", ⟨5, 2000, none, none⟩)] "A" "B" =
      .ok res) :=
  ⟨(claim_C10_rename_keyerror [] "A" "B").1 rfl rfl,
    (claim_C10_rename_keyerror [("A", ⟨5, 2000, none, none⟩)] "A" "B").2
      ⟨5, 2000, none, none⟩ (by decide)⟩

/-- C1 as stated is false: `update_movie_field` on an absent title does not
fail with a `NotFound` result — it raises `KeyError` (here: on the empty
collection and title `"A"`). -/
theorem claim_C1_counterexample :
    update_movie_field [] "A" Field.rating (5 : ℚ) =
      .error (.keyError "A") ∧
    (update_movie_field [] "A" Field.rating (5 : ℚ)).isOk = false := by
  exact ⟨rfl, rfl⟩

/-- C1 amended: on an absent title `update_movie_field` raises `KeyError`
(no result is returned, nothing is mutated or saved); on a present title it
sets the named field on the existing record and persists, leaving every
other title's record unchanged. -/
theorem claim_C1_update_field (c : Collection) (t : String) (f : Field)
    (v : f.Ty) :
    (lookupTitle c t = none →
      update_movie_field c t f v = .error (.keyError t)) ∧
    (∀ m, lookupTitle c t = some m →
      ∃ c', update_movie_field c t f v =
          .ok ⟨c', [c'], true, pyCapitalize f.pyName ++ " updated successfully."⟩ ∧
        lookupTitle c' t = some (setField m f v) ∧
        ∀ u, u ≠ t → lookupTitle c' u = lookupTitle c u) := by
  constructor
  · intro h
    simp [update_movie_field, h]
  · intro m hm
    refine ⟨c.map (fun p => if p.1 = t then (p.1, setField p.2 f v) else p),
      ?_, ?_, ?_⟩
    · simp [update_movie_field, hm]
    · exact lookupTitle_mapSet_self (fun x => setField x f v) hm
    · intro u hu
      exact lookupTitle_mapSet_ne (fun x => setField x f v) hu

/-- C2 as stated is false at the payload `imdbRating = ""`: the empty
string is present, differs from `"N/A"`, and is not parseable as a number,
yet the add succeeds (Python's truthiness test `rating_str and ...` treats
`""` like an absent value), mutating and saving the collection. -/
theorem claim_C2_counterexample :
    pyFloat? "" = none ∧
    ("" : String) ≠ "N/A" ∧
    (add_movie_from_omdb [] "T" ⟨none, some "", none, none⟩).ok = true ∧
    (add_movie_from_omdb [] "T" ⟨none, some "", none, none⟩).movies ≠ [] ∧
    (add_movie_from_omdb [] "T" ⟨none, some "", none, none⟩).saved ≠ [] := by
  refine ⟨by decide, by decide, by decide, by decide, by decide⟩

/-- C2 amended: when the title is absent and the payload's rating string is
present, non-empty, not `"N/A"`, and not parseable as a number, the whole
external add fails with the parse-error message carrying the underlying
cause, the in-memory collection is returned unchanged, and nothing is
saved. -/
theorem claim_C2_parse_failure (c : Collection) (t : String) (d : OmdbData)
    (s : String) (habsent : lookupTitle c t = none)
    (hs : d.imdbRating = some s) (hne : s ≠ "") (hna : s ≠ "N/A")
    (hbad : pyFloat? s = none) :
    add_movie_from_omdb c t d =
      ⟨c, [], false, "Could not parse movie data from OMDb: " ++
        ("could not convert string to float: " ++ sq ++ s ++ sq)⟩ := by
  simp [add_movie_from_omdb, habsent, hs, omdbRating, hne, hna, hbad]

theorem claim_C2_parse_failure_witness :
    add_movie_from_omdb [] "T" ⟨none, some "bad", none, none⟩ =
      ⟨[], [], false, "Could not parse movie data from OMDb: " ++
        ("could not convert string to float: " ++ sq ++ "bad" ++ sq)⟩ :=
  claim_C2_parse_failure [] "T" ⟨none, some "bad", none, none⟩ "bad"
    rfl rfl (by decide) (by decide) (by decide)

/-- C4 as stated is false at the payload `imdbRating = ""`: the add is
accepted, yet the stored rating is `0.0` although the rating string is
present (so not "absent") and not `"N/A"`, and no real number parses from
it. -/
theorem claim_C4_counterexample :
    (add_movie_from_omdb [] "U" ⟨none, some "", none, some "X"⟩).ok = true ∧
    lookupTitle (add_movie_from_omdb [] "U" ⟨none, some "", none, some "X"⟩).movies
      "U" = some ⟨0, 0, none, some ["X"]⟩ ∧
    pyFloat? "" = none ∧
    ("" : String) ≠ "N/A" := by
  refine ⟨by decide, by decide, by decide, by decide⟩

/-- C4 amended: for every payload accepted by the external add (title not
yet present), the stored year is the decimal value of the payload's year
string when that string is present, non-empty and all digits, and `0`
otherwise; the stored rating is `0.0` when the rating string is absent,
empty, or the sentinel `"N/A"`, and otherwise is exactly the number parsed
from it. -/
theorem claim_C4_parsing_policy (c : Collection) (t : String) (d : OmdbData)
    (habsent : lookupTitle c t = none)
    (hok : (add_movie_from_omdb c t d).ok = true) :
    ∃ m : Movie,
      lookupTitle (add_movie_from_omdb c t d).movies t = some m ∧
      (∀ s, d.year = some s → s.data ≠ [] → (∀ ch ∈ s.data, ch.isDigit = true) →
        m.year = (natOfDigits s.data : ℤ)) ∧
      (d.year = none → m.year = 0) ∧
      (∀ s, d.year = some s → (s.data = [] ∨ ∃ ch ∈ s.data, ch.isDigit = false) →
        m.year = 0) ∧
      ((d.imdbRating = none ∨ d.imdbRating = some "" ∨ d.imdbRating = some "N/A") →
        m.rating = 0) ∧
      (∀ s, d.imdbRating = some s → s ≠ "" → s ≠ "N/A" →
        pyFloat? s = some m.rating) := by
  rcases hr : omdbRating d.imdbRating with e | q
  · exfalso
    simp [add_movie_from_omdb, habsent, hr] at hok
  · have hres : add_movie_from_omdb c t d =
        ⟨c ++ [(t, ⟨q, omdbYear d.year, d.plot, some (splitActors (d.actors.getD ""))⟩)],
          [c ++ [(t, ⟨q, omdbYear d.year, d.plot, some (splitActors (d.actors.getD ""))⟩)]],
          true, "Movie " ++ sq ++ t ++ sq ++ " added successfully."⟩ := by
      simp [add_movie_from_omdb, habsent, hr]
    refine ⟨⟨q, omdbYear d.year, d.plot, some (splitActors (d.actors.getD ""))⟩,
      ?_, ?_, ?_, ?_, ?_, ?_⟩
    · rw [hres]
      show lookupTitle (c ++ _) t = _
      rw [lookupTitle_append habsent]
      simp [lookupTitle]
    · intro s hy hne hdig
      show omdbYear d.year = (natOfDigits s.data : ℤ)
      rw [hy, omdbYear, if_pos]
      rw [pyIsDigit]
      simp only [Bool.and_eq_true, Bool.not_eq_true', List.isEmpty_eq_true,
        List.all_eq_true]
      exact ⟨by simpa using hne, hdig⟩
    · intro hy
      show omdbYear d.year = 0
      rw [hy, omdbYear]
    · intro s hy hbad
      show omdbYear d.year = 0
      rw [hy, omdbYear, if_neg]
      rw [pyIsDigit]
      simp only [Bool.and_eq_true, Bool.not_eq_true', List.isEmpty_eq_true,
        List.all_eq_true, not_and]
      intro hne hall
      rcases hbad with h1 | ⟨ch, hch, hchd⟩
      · rw [h1] at hne
        simp at hne
      · exact absurd (hall ch hch) (by simp [hchd])
    · intro habs
      show q = 0
      rcases habs with h1 | h1 | h1 <;>
        · rw [h1] at hr
          simp [omdbRating] at hr
          exact hr.symm
    · intro s hsr hne hna
      show pyFloat? s = some q
      rw [hsr] at hr
      rw [omdbRating, if_pos ⟨hne, hna⟩] at hr
      rcases hpf : pyFloat? s with _ | q'
      · rw [hpf] at hr
        simp at hr
      · rw [hpf] at hr
        simp only [Except.ok.injEq] at hr
        rw [hr]

theorem claim_C4_parsing_policy_witness :
    ∃ m : Movie,
      lookupTitle (add_movie_from_omdb [] "W"
        ⟨some "2010", some "N/A", some "p", some "A, B"⟩).movies "W" = some m ∧
      m.year = 2010 ∧ m.rating = 0 := by
  obtain ⟨m, hm, hy, -, -, hna, -⟩ := claim_C4_parsing_policy [] "W"
    ⟨some "2010", some "N/A", some "p", some "A, B"⟩ rfl (by decide)
  refine ⟨m, hm, ?_, hna (Or.inr (Or.inr rfl))⟩
  rw [hy "2010" rfl (by decide) (by decide)]
  decide

/-- C5: for every successful external add, the stored actors list is the
payload's actor string (default `""`) split on commas with each piece
stripped, in order; an empty actor source yields `[""]`, and the list is
never `[]`. -/
theorem claim_C5_actor_split (c : Collection) (t : String) (d : OmdbData)
    (habsent : lookupTitle c t = none)
    (hok : (add_movie_from_omdb c t d).ok = true) :
    ∃ m : Movie,
      lookupTitle (add_movie_from_omdb c t d).movies t = some m ∧
      m.actors = some ((pySplit ',' (d.actors.getD "").data).map
        (fun l => pyStrip (String.mk l))) ∧
      ((d.actors = none ∨ d.actors = some "") → m.actors = some [""]) ∧
      m.actors ≠ some ([] : List String) := by
  rcases hr : omdbRating d.imdbRating with e | q
  · exfalso
    simp [add_movie_from_omdb, habsent, hr] at hok
  · have hres : add_movie_from_omdb c t d =
        ⟨c ++ [(t, ⟨q, omdbYear d.year, d.plot, some (splitActors (d.actors.getD ""))⟩)],
          [c ++ [(t, ⟨q, omdbYear d.year, d.plot, some (splitActors (d.actors.getD ""))⟩)]],
          true, "Movie " ++ sq ++ t ++ sq ++ " added successfully."⟩ := by
      simp [add_movie_from_omdb, habsent, hr]
    refine ⟨⟨q, omdbYear d.year, d.plot, some (splitActors (d.actors.getD ""))⟩,
      ?_, rfl, ?_, ?_⟩
    · rw [hres]
      show lookupTitle (c ++ _) t = _
      rw [lookupTitle_append habsent]
      simp [lookupTitle]
    · intro habs
      show some (splitActors (d.actors.getD "")) = some [""]
      have hempty : d.actors.getD "" = "" := by
        rcases habs with h1 | h1 <;> simp [h1]
      rw [hempty]
      decide
    · show some (splitActors (d.actors.getD "")) ≠ some ([] : List String)
      simp only [ne_eq, Option.some.injEq, splitActors]
      intro hmap
      have hlen := congrArg List.length hmap
      simp only [List.length_map, List.length_nil] at hlen
      exact pySplit_ne_nil ',' (d.actors.getD "").data (List.length_eq_zero.mp hlen)

theorem claim_C5_actor_split_witness :
    ∃ m : Movie,
      lookupTitle (add_movie_from_omdb [] "V"
        ⟨none, none, none, some "A, B"⟩).movies "V" = some m ∧
      m.actors = some ["A", "B"] ∧ m.actors ≠ some ([] : List String) := by
  obtain ⟨m, hm, hsplit, -, hnenil⟩ := claim_C5_actor_split [] "V"
    ⟨none, none, none, some "A, B"⟩ rfl (by decide)
  refine ⟨m, hm, ?_, hnenil⟩
  rw [hsplit]
  decide

theorem claim_C1_update_field_witness :
    (update_movie_field [] "B" Field.year (1999 : ℤ) =
      .error (.keyError "B")) ∧
    (∃ c', update_movie_field [("A", ⟨5, 2000, none, none⟩)] "A" Field.year
        ((1999 : ℤ) : Field.Ty Field.year) =
        .ok ⟨c', [c'], true,
          pyCapitalize (Field.year).pyName ++ " updated successfully."⟩ ∧
      lookupTitle c' "A" = some (setField ⟨5, 2000, none, none⟩ Field.year 1999) ∧
      ∀ u, u ≠ "A" → lookupTitle c' u =
        lookupTitle [("A", ⟨5, 2000, none, none⟩)] u) :=
  ⟨(claim_C1_update_field [] "B" Field.year 1999).1 rfl,
    (claim_C1_update_field [("A", ⟨5, 2000, none, none⟩)] "A" Field.year
      1999).2 ⟨5, 2000, none, none⟩ (by decide)⟩

/-- C7: a `y:` query whose remainder does not parse as an integer, or an
`r:` query whose remainder does not parse as a number, makes the whole
search return `none` (the malformed-query signal), which is distinct from
the `some []` returned by a well-formed query matching nothing. -/
theorem claim_C7_malformed_query (c : Collection) (rest : String) :
    (pyInt? (pyStrip (String.mk (rest.data.map Char.toLower))) = none →
      search_movies c ("y:" ++ rest) = none) ∧
    (pyFloat? (pyStrip (String.mk (rest.data.map Char.toLower))) = none →
      search_movies c ("r:" ++ rest) = none) ∧
    (∀ n, pyInt? (pyStrip (String.mk (rest.data.map Char.toLower))) = some n →
      (∀ p ∈ c, p.2.year ≠ n) → search_movies c ("y:" ++ rest) = some []) ∧
    (none : Option (List (String × Movie))) ≠ some [] := by
  have hy : ("y:" ++ rest).data.map Char.toLower =
      'y' :: ':' :: rest.data.map Char.toLower := by
    rw [String.data_append]
    show (('y' :: ':' :: []) ++ rest.data).map Char.toLower = _
    simp [(by decide : Char.toLower 'y' = 'y'),
      (by decide : Char.toLower ':' = ':')]
  have hrq : ("r:" ++ rest).data.map Char.toLower =
      'r' :: ':' :: rest.data.map Char.toLower := by
    rw [String.data_append]
    show (('r' :: ':' :: []) ++ rest.data).map Char.toLower = _
    simp [(by decide : Char.toLower 'r' = 'r'),
      (by decide : Char.toLower ':' = ':')]
  refine ⟨?_, ?_, ?_, by simp⟩
  · intro hbad
    rw [search_movies, hy]
    simp only [List.take_succ_cons, List.take_zero]
    rw [if_neg (by decide), if_pos (by decide)]
    simp only [List.drop_succ_cons, List.drop_zero]
    rw [hbad]
  · intro hbad
    rw [search_movies, hrq]
    simp only [List.take_succ_cons, List.take_zero]
    rw [if_neg (by decide), if_neg (by decide), if_pos (by decide)]
    simp only [List.drop_succ_cons, List.drop_zero]
    rw [hbad]
  · intro n hn hmiss
    rw [search_movies, hy]
    simp only [List.take_succ_cons, List.take_zero]
    rw [if_neg (by decide), if_pos (by decide)]
    simp only [List.drop_succ_cons, List.drop_zero]
    rw [hn]
    simp only [Option.some.injEq]
    rw [List.filter_eq_nil_iff]
    intro p hp
    simp [hmiss p hp]

theorem claim_C7_malformed_query_witness :
    search_movies [("A", ⟨5, 1999, none, none⟩)] "y:19x9" = none ∧
    search_movies [("A", ⟨5, 1999, none, none⟩)] "r:19x9" = none ∧
    search_movies [("A", ⟨5, 2000, none, none⟩)] "y:1999" = some [] ∧
    (none : Option (List (String × Movie))) ≠ some [] :=
  ⟨(claim_C7_malformed_query [("A", ⟨5, 1999, none, none⟩)] "19x9").1 (by decide),
    (claim_C7_malformed_query [("A", ⟨5, 1999, none, none⟩)] "19x9").2.1 (by decide),
    (claim_C7_malformed_query [("A", ⟨5, 2000, none, none⟩)] "1999").2.2.1 1999
      (by decide) (by decide),
    (claim_C7_malformed_query [] "19x9").2.2.2⟩

/-- C8: when `oldTitle` is present, the rename fails with the duplicate
message whenever `newTitle` is present (including `newTitle = oldTitle`)
without mutating or saving; otherwise it removes the entry under
`oldTitle`, stores the identical record under `newTitle`, persists, and
leaves every other title's record unchanged. -/
theorem claim_C8_rename (c : Collection) (oldT newT : String) (m : Movie)
    (hnd : (c.map Prod.fst).Nodup) (hold : lookupTitle c oldT = some m) :
    ((lookupTitle c newT).isSome = true →
      update_movie_title c oldT newT =
        .ok ⟨c, [], false, "Invalid or duplicate title."⟩) ∧
    (newT = oldT →
      update_movie_title c oldT newT =
        .ok ⟨c, [], false, "Invalid or duplicate title."⟩) ∧
    (lookupTitle c newT = none →
      update_movie_title c oldT newT =
        .ok ⟨removeTitle c oldT ++ [(newT, m)],
          [removeTitle c oldT ++ [(newT, m)]], true,
          "Movie title updated to " ++ sq ++ newT ++ sq ++ "."⟩ ∧
      lookupTitle (removeTitle c oldT ++ [(newT, m)]) newT = some m ∧
      lookupTitle (removeTitle c oldT ++ [(newT, m)]) oldT = none ∧
      (∀ u, u ≠ oldT → u ≠ newT →
        lookupTitle (removeTitle c oldT ++ [(newT, m)]) u = lookupTitle c u)) := by
  refine ⟨?_, ?_, ?_⟩
  · intro h
    simp [update_movie_title, h]
  · intro h
    rw [h]
    have : (lookupTitle c oldT).isSome = true := by rw [hold]; rfl
    simp [update_movie_title, this]
  · intro h
    have hns : ¬ ((lookupTitle c newT).isSome = true) := by simp [h]
    have hne : oldT ≠ newT := by
      intro e
      rw [e, h] at hold
      exact Option.noConfusion hold
    refine ⟨?_, ?_, ?_, ?_⟩
    · rw [update_movie_title, if_neg hns, hold]
    · have h1 : lookupTitle (removeTitle c oldT) newT = none :=
        lookupTitle_removeTitle_none h
      rw [lookupTitle_append h1]
      simp [lookupTitle]
    · have h2 : lookupTitle (removeTitle c oldT) oldT = none :=
        lookupTitle_removeTitle_self hnd
      rw [lookupTitle_append h2]
      rw [lookupTitle, if_neg (fun e => hne e.symm)]
      rfl
    · intro u hu1 hu2
      have h3 : lookupTitle (removeTitle c oldT) u = lookupTitle c u :=
        lookupTitle_removeTitle_ne hu1
      rcases hcu : lookupTitle c u with _ | x
      · rw [lookupTitle_append (by rw [h3, hcu])]
        rw [lookupTitle, if_neg (fun e => hu2 e.symm)]
        rfl
      · exact lookupTitle_append_some (by rw [h3, hcu])

theorem claim_C8_rename_witness :
    (update_movie_title [("A", ⟨5, 2000, none, none⟩), ("B", ⟨6, 1999, none, none⟩)]
        "A" "A" =
      .ok ⟨[("A", ⟨5, 2000, none, none⟩), ("B", ⟨6, 1999, none, none⟩)], [],
        false, "Invalid or duplicate title."⟩) ∧
    (update_movie_title [("A", ⟨5, 2000, none, none⟩), ("B", ⟨6, 1999, none, none⟩)]
        "A" "C" =
      .ok ⟨removeTitle [("A", ⟨5, 2000, none, none⟩), ("B", ⟨6, 1999, none, none⟩)] "A"
          ++ [("C", ⟨5, 2000, none, none⟩)],
        [removeTitle [("A", ⟨5, 2000, none, none⟩), ("B", ⟨6, 1999, none, none⟩)] "A"
          ++ [("C", ⟨5, 2000, none, none⟩)]], true,
        "Movie title updated to " ++ sq ++ "C" ++ sq ++ "."⟩ ∧
      lookupTitle (removeTitle [("A", ⟨5, 2000, none, none⟩), ("B", ⟨6, 1999, none, none⟩)] "A"
        ++ [("C", ⟨5, 2000, none, none⟩)]) "C" = some ⟨5, 2000, none, none⟩ ∧
      lookupTitle (removeTitle [("A", ⟨5, 2000, none, none⟩), ("B", ⟨6, 1999, none, none⟩)] "A"
        ++ [("C", ⟨5, 2000, none, none⟩)]) "A" = none ∧
      (∀ u, u ≠ "A" → u ≠ "C" →
        lookupTitle (removeTitle [("A", ⟨5, 2000, none, none⟩), ("B", ⟨6, 1999, none, none⟩)] "A"
          ++ [("C", ⟨5, 2000, none, none⟩)]) u =
        lookupTitle [("A", ⟨5, 2000, none, none⟩), ("B", ⟨6, 1999, none, none⟩)] u)) :=
  ⟨(claim_C8_rename [("A", ⟨5, 2000, none, none⟩), ("B", ⟨6, 1999, none, none⟩)]
      "A" "A" ⟨5, 2000, none, none⟩ (by decide) (by decide)).2.1 rfl,
    (claim_C8_rename [("A", ⟨5, 2000, none, none⟩), ("B", ⟨6, 1999, none, none⟩)]
      "A" "C" ⟨5, 2000, none, none⟩ (by decide) (by decide)).2.2 (by decide)⟩

/-- C6: `get_stats` returns `none` exactly on the empty collection; on a
non-empty collection it reports the entry count, the arithmetic mean of
the ratings, the standard median (middle of a sorted permutation, averaging
the two middle values for even counts), and best/worst pairs whose title
lists are non-empty, sorted ascending, and contain exactly the titles whose
rating equals (exact equality) the reported maximum resp. minimum. -/
theorem claim_C6_stats (c : Collection) :
    (get_stats c = none ↔ c = []) ∧
    (c ≠ [] → ∃ st, get_stats c = some st ∧
      st.total_movies = c.length ∧
      st.avg_rating = (c.map (fun p => p.2.rating)).sum / (c.length : ℚ) ∧
      (∃ s : List ℚ, s.Perm (c.map (fun p => p.2.rating)) ∧ s.Sorted (· ≤ ·) ∧
        st.median_rating = (if c.length % 2 = 1 then s.getD (c.length / 2) 0
          else (s.getD (c.length / 2 - 1) 0 + s.getD (c.length / 2) 0) / 2)) ∧
      (∀ p ∈ c, p.2.rating ≤ st.best_movies.2) ∧
      st.best_movies.1 ≠ [] ∧
      st.best_movies.1.Sorted (· ≤ ·) ∧
      (∀ t, t ∈ st.best_movies.1 ↔
        ∃ p ∈ c, p.1 = t ∧ p.2.rating = st.best_movies.2) ∧
      (∀ p ∈ c, st.worst_movies.2 ≤ p.2.rating) ∧
      st.worst_movies.1 ≠ [] ∧
      st.worst_movies.1.Sorted (· ≤ ·) ∧
      (∀ t, t ∈ st.worst_movies.1 ↔
        ∃ p ∈ c, p.1 = t ∧ p.2.rating = st.worst_movies.2)) := by
  constructor
  · cases c <;> simp [get_stats]
  · intro hne
    have hemp : c.isEmpty = false := by
      cases c
      · exact absurd rfl hne
      · rfl
    have hlen : (c.map (fun p => p.2.rating)).length = c.length :=
      List.length_map c _
    have hRne : c.map (fun p => p.2.rating) ≠ [] := by
      intro h
      exact hne (List.map_eq_nil_iff.mp h)
    have hst : get_stats c = some
        ⟨(c.map (fun p => p.2.rating)).length,
          (c.map (fun p => p.2.rating)).sum /
            ((c.map (fun p => p.2.rating)).length : ℚ),
          (if (c.map (fun p => p.2.rating)).length % 2 = 1 then
              (List.insertionSort (· ≤ ·) (c.map (fun p => p.2.rating))).getD
                ((c.map (fun p => p.2.rating)).length / 2) 0
            else
              ((List.insertionSort (· ≤ ·) (c.map (fun p => p.2.rating))).getD
                ((c.map (fun p => p.2.rating)).length / 2 - 1) 0 +
               (List.insertionSort (· ≤ ·) (c.map (fun p => p.2.rating))).getD
                ((c.map (fun p => p.2.rating)).length / 2) 0) / 2),
          (List.insertionSort (· ≤ ·)
            ((c.filter (fun p =>
              decide (p.2.rating = listMax (c.map (fun p => p.2.rating))))).map
                Prod.fst),
            listMax (c.map (fun p => p.2.rating))),
          (List.insertionSort (· ≤ ·)
            ((c.filter (fun p =>
              decide (p.2.rating = listMin (c.map (fun p => p.2.rating))))).map
                Prod.fst),
            listMin (c.map (fun p => p.2.rating)))⟩ := by
      simp only [get_stats, hemp, Bool.false_eq_true, if_false]
    refine ⟨_, hst, ?_, ?_, ?_, ?_, ?_, ?_, ?_, ?_, ?_, ?_, ?_⟩
    · exact hlen
    · show _ = (c.map (fun p => p.2.rating)).sum / ((c.length : ℕ) : ℚ)
      rw [← hlen]
    · refine ⟨List.insertionSort (· ≤ ·) (c.map (fun p => p.2.rating)),
        List.perm_insertionSort _ _, List.sorted_insertionSort _ _, ?_⟩
      rw [hlen]
    · intro p hp
      exact le_listMax (List.mem_map_of_mem _ hp)
    · obtain ⟨p₀, hp₀, hr₀⟩ := List.mem_map.mp (listMax_mem hRne)
      have hmem : p₀.1 ∈ (c.filter (fun p =>
          decide (p.2.rating = listMax (c.map (fun p => p.2.rating))))).map
            Prod.fst :=
        List.mem_map_of_mem _ (List.mem_filter.mpr ⟨hp₀, by simp [hr₀]⟩)
      exact List.ne_nil_of_mem
        ((List.perm_insertionSort _ _).mem_iff.mpr hmem)
    · exact List.sorted_insertionSort _ _
    · intro t
      rw [(List.perm_insertionSort _ _).mem_iff]
      simp [List.mem_map, List.mem_filter]
      constructor
      · intro h
        obtain ⟨x, hx, hr⟩ := h
        exact ⟨t, x, hx, rfl, hr⟩
      · intro h
        obtain ⟨a, b, hab, heq, hr⟩ := h
        subst heq
        exact ⟨b, hab, hr⟩
    · intro p hp
      exact listMin_le (List.mem_map_of_mem _ hp)
    · obtain ⟨p₀, hp₀, hr₀⟩ := List.mem_map.mp (listMin_mem hRne)
      have hmem : p₀.1 ∈ (c.filter (fun p =>
          decide (p.2.rating = listMin (c.map (fun p => p.2.rating))))).map
            Prod.fst :=
        List.mem_map_of_mem _ (List.mem_filter.mpr ⟨hp₀, by simp [hr₀]⟩)
      exact List.ne_nil_of_mem
        ((List.perm_insertionSort _ _).mem_iff.mpr hmem)
    · exact List.sorted_insertionSort _ _
    · intro t
      rw [(List.perm_insertionSort _ _).mem_iff]
      simp [List.mem_map, List.mem_filter]
      constructor
      · intro h
        obtain ⟨x, hx, hr⟩ := h
        exact ⟨t, x, hx, rfl, hr⟩
      · intro h
        obtain ⟨a, b, hab, heq, hr⟩ := h
        subst heq
        exact ⟨b, hab, hr⟩

theorem claim_C6_stats_witness :
    ∃ st, get_stats [("B", ⟨5, 2000, none, none⟩), ("A", ⟨7, 1999, none, none⟩),
        ("C", ⟨5, 1990, none, none⟩)] = some st ∧
      st.total_movies = 3 ∧
      st.best_movies.1 ≠ [] ∧
      st.best_movies.1.Sorted (· ≤ ·) ∧
      st.worst_movies.1 ≠ [] ∧
      st.worst_movies.1.Sorted (· ≤ ·) := by
  obtain ⟨st, hst, htot, -, -, -, hbne, hbs, -, -, hwne, hws, -⟩ :=
    (claim_C6_stats [("B", ⟨5, 2000, none, none⟩), ("A", ⟨7, 1999, none, none⟩),
      ("C", ⟨5, 1990, none, none⟩)]).2 (by decide)
  exact ⟨st, hst, htot, hbne, hbs, hwne, hws⟩

/-- C9: for any collection, sorting by year descending and ascending give
key sequences that are exact reverses of each other, while entries with
equal year keep their original relative order in both results (the sort is
stable within ties under both directions). -/
theorem claim_C9_sort_year_reverse (c : Collection) :
    (sort_movies c .year true).map (fun p => p.2.year) =
      ((sort_movies c .year false).map (fun p => p.2.year)).reverse ∧
    (∀ v : ℤ,
      (sort_movies c .year true).filter (fun p => decide (p.2.year = v)) =
        c.filter (fun p => decide (p.2.year = v))) ∧
    (∀ v : ℤ,
      (sort_movies c .year false).filter (fun p => decide (p.2.year = v)) =
        c.filter (fun p => decide (p.2.year = v))) := by
  haveI hTot : IsTotal (String × Movie) (sortRel SortKey.year) :=
    ⟨fun x y => le_total x.2.year y.2.year⟩
  haveI hTr : IsTrans (String × Movie) (sortRel SortKey.year) :=
    ⟨fun x y z h1 h2 => le_trans h1 h2⟩
  haveI hTot' : IsTotal (String × Movie) (fun x y => sortRel SortKey.year y x) :=
    ⟨fun x y => le_total y.2.year x.2.year⟩
  haveI hTr' : IsTrans (String × Movie) (fun x y => sortRel SortKey.year y x) :=
    ⟨fun x y z h1 h2 => le_trans h2 h1⟩
  have hA : sort_movies c .year false =
      List.insertionSort (sortRel SortKey.year) c := rfl
  have hD : sort_movies c .year true =
      List.insertionSort (fun x y => sortRel SortKey.year y x) c := rfl
  refine ⟨?_, ?_, ?_⟩
  · rw [hA, hD]
    haveI : IsAntisymm ℤ (fun a b : ℤ => b ≤ a) :=
      ⟨fun a b h1 h2 => le_antisymm h2 h1⟩
    have sA : List.Pairwise (· ≤ ·)
        ((List.insertionSort (sortRel SortKey.year) c).map (fun p => p.2.year)) :=
      List.Pairwise.map _ (fun a b hab => hab)
        (List.sorted_insertionSort (sortRel SortKey.year) c)
    have sD : List.Pairwise (fun a b : ℤ => b ≤ a)
        ((List.insertionSort (fun x y => sortRel SortKey.year y x) c).map
          (fun p => p.2.year)) :=
      List.Pairwise.map _ (fun a b hab => hab)
        (List.sorted_insertionSort (fun x y => sortRel SortKey.year y x) c)
    have hRevA : List.Pairwise (fun a b : ℤ => b ≤ a)
        (((List.insertionSort (sortRel SortKey.year) c).map
          (fun p => p.2.year)).reverse) :=
      List.pairwise_reverse.mpr sA
    have hp : ((List.insertionSort (fun x y => sortRel SortKey.year y x) c).map
        (fun p => p.2.year)).Perm
        (((List.insertionSort (sortRel SortKey.year) c).map
          (fun p => p.2.year)).reverse) :=
      ((List.perm_insertionSort _ c).map _).trans
        ((((List.perm_insertionSort (sortRel SortKey.year) c).map
          (fun p => p.2.year)).symm).trans (List.reverse_perm _).symm)
    exact List.eq_of_perm_of_sorted hp sD hRevA
  · intro v
    rw [hD]
    exact filter_insertionSort _ _
      (fun x y hx hy => by
        have hx' : x.2.year = v := by simpa using hx
        have hy' : y.2.year = v := by simpa using hy
        show y.2.year ≤ x.2.year
        rw [hx', hy']) c
  · intro v
    rw [hA]
    exact filter_insertionSort _ _
      (fun x y hx hy => by
        have hx' : x.2.year = v := by simpa using hx
        have hy' : y.2.year = v := by simpa using hy
        show x.2.year ≤ y.2.year
        rw [hx', hy']) c

end MovieDB
